import Mathlib

/-!
Shallow embedding of the signal-analysis engine of the repository
(`src/analyzer.py`, class `Analyzer`, and `src/intelligence.py`, class
`ForensicAnalyzer`), together with proofs settling the claims about it.

Modelling conventions, fixed once for the whole file:

* Python floats are modelled as exact rationals (`ℚ`); `round(x, n)` is
  modelled as decimal round-half-to-even (`roundTo`), which is what Python's
  `round` implements, idealized away from binary-float representation error.
* Timestamps are modelled at day granularity as integers (`ℤ`), with day `0`
  a Monday.  This is faithful to the pandas weekly resampling the source
  uses: for day-or-coarser frequencies pandas adjusts bin edges to the end
  of the labelling day, so a record always lands in the weekly bucket of its
  calendar day.  `resample('W')` (= `W-SUN`, right-closed, right-labelled)
  bins days Monday..Sunday and labels the bucket with its Sunday;
  `resample('W-MON')` bins days Tuesday..Monday labelled with the Monday.
  Both resamplers emit one bucket for every week between the first and the
  last label, including empty intermediate weeks.
* Python dicts are modelled as association lists in insertion order;
  `list.sort`/`nlargest(keep='first')` are modelled with a stable
  insertion sort (`stableSortDesc`), matching Python's stable sorting.
* A pandas column is "present" when some record carries the field
  (modelled with `Option`); `fillna` corresponds to `Option.getD`.
* Regex use in the source is limited to alternations of escaped literals
  and the fixed churn pattern; both are modelled by direct substring /
  scanning functions on lists of characters (`containsList`,
  `churnMatch`), with ASCII case folding (`asciiLower`), which covers the
  ASCII texts the analyses and claims are about.
-/

namespace AppScraper

/-! ### Character and string helpers -/

/-- ASCII lower-casing of one character, the fragment of Python `str.lower`
exercised by the engine's keyword matching. -/
def asciiLower (c : Char) : Char :=
  if 'A' ≤ c ∧ c ≤ 'Z' then Char.ofNat (c.toNat + 32) else c

/-- Lower-cased character list of a string. -/
def lowerChars (s : String) : List Char := s.toList.map asciiLower

/-- Python `\s` (ASCII range): the whitespace class used by `str.strip`,
`str.split` and the `\s+` pieces of the churn regex. -/
def isWs (c : Char) : Bool :=
  c = ' ' ∨ c = '\t' ∨ c = '\n' ∨ c = '\r' ∨ c = '\x0b' ∨ c = '\x0c'

/-- Python regex `\w` (ASCII range): letters, digits, underscore. -/
def isWordChar (c : Char) : Bool := c.isAlphanum || c = '_'

/-- Does `n` occur at the head of `h`? -/
def startsList : List Char → List Char → Bool
  | [], _ => true
  | _ :: _, [] => false
  | a :: as, b :: bs => a = b && startsList as bs

/-- Contiguous-substring test: Python's `needle in haystack`. -/
def containsList (n h : List Char) : Bool := h.tails.any (startsList n)

/-- Lexicographic code-point comparison of character lists (Python `str <`,
with the proper-prefix rule). -/
def charListLt : List Char → List Char → Bool
  | [], [] => false
  | [], _ :: _ => true
  | _ :: _, [] => false
  | a :: as, b :: bs =>
    if a.toNat < b.toNat then true
    else if b.toNat < a.toNat then false
    else charListLt as bs

/-- Python `<` on strings. -/
def strLt (a b : String) : Bool := charListLt a.toList b.toList

/-- Maximal runs of characters satisfying `p` (used for `re.findall` of
`\w+`-like patterns and for Python's whitespace `str.split`).  The
accumulator holds the current run, reversed. -/
def runsByAux (p : Char → Bool) : List Char → List Char → List (List Char)
  | [], acc => if acc.isEmpty then [] else [acc.reverse]
  | c :: cs, acc =>
    if p c then runsByAux p cs (c :: acc)
    else if acc.isEmpty then runsByAux p cs []
    else acc.reverse :: runsByAux p cs []

def runsBy (p : Char → Bool) (cs : List Char) : List (List Char) :=
  runsByAux p cs []

/-- Python `str.strip()` (default whitespace). -/
def stripWs (cs : List Char) : List Char :=
  ((cs.dropWhile isWs).reverse.dropWhile isWs).reverse

/-! ### Decimal rounding -/

/-- Round-half-to-even to an integer, the rounding mode of Python `round`. -/
def roundHalfEven (q : ℚ) : ℤ :=
  let f : ℤ := ⌊q⌋
  if q - f < 1/2 then f
  else if q - f > 1/2 then f + 1
  else if f % 2 = 0 then f else f + 1

/-- Python `round(q, digits)` on our idealized rationals. -/
def roundTo (digits : ℕ) (q : ℚ) : ℚ :=
  (roundHalfEven (q * (10 : ℚ) ^ digits) : ℚ) / (10 : ℚ) ^ digits

/-! ### Stable sorting: Python `list.sort` and `nlargest` with keep set to first. -/

/-- Insert `a` into a list already sorted descending by `key`, after every
element of equal or larger key (stability: later-arriving elements go after
earlier ties). -/
def insertDescBy (key : α → ℚ) (a : α) : List α → List α
  | [] => [a]
  | b :: bs => if key b < key a then a :: b :: bs else b :: insertDescBy key a bs

/-- Stable descending sort by `key`, matching Python's stable `sort` with
`reverse`-style descending keys. -/
def stableSortDesc (key : α → ℚ) (l : List α) : List α :=
  l.foldl (fun acc a => insertDescBy key a acc) []

/-! ### Data model: taxonomy and raw review records -/

/-- One category of `pain_keywords.json`: `{keywords: [...], weight: w}`. -/
structure Category where
  name : String
  keywords : List String
  weight : ℚ
deriving Repr, DecidableEq

/-- The keyword taxonomy `{categories: {...}}`, in file order.  The source
keeps it in `self.pain_keywords`; an unloaded configuration behaves exactly
like an empty category list in every code path the claims touch, so the
taxonomy is modelled as always present. -/
structure Taxonomy where
  categories : List Category
deriving Repr, DecidableEq

/-- Lookup of a category by name (first match, as in a Python dict whose
keys are unique). -/
def Taxonomy.find (t : Taxonomy) (name : String) : Option Category :=
  t.categories.find? (fun c => c.name = name)

/-- A raw review item as fed to `Analyzer.analyze`: every field optional,
mirroring the loosely-typed dicts.  `date` is a day number (day 0 = Monday);
`none` models a missing or unparsable value (pandas `NaT`/`NaN`). -/
structure Review where
  title : Option String := none
  text : Option String := none
  date : Option ℤ := none
  score : Option ℤ := none
  version : Option String := none
deriving Repr, DecidableEq

/-- Is the column present in the DataFrame built from these records? -/
def colSome (f : Review → Option α) (reviews : List Review) : Bool :=
  reviews.any (fun r => (f r).isSome)

end AppScraper

namespace AppScraper
namespace Analyzer

/-! ### `Analyzer._identify_pain_keyword_reviews` and
`Analyzer.calculate_keyword_density` (src/analyzer.py).

The source escapes every keyword and joins them into one regex alternation;
matching that alternation case-insensitively is exactly "some keyword is a
substring of the lower-cased text", which is how it is modelled here. -/

/-- The combined searchable text of a record: `title + ' ' + text` when the
DataFrame has a `title` column, else `text`, lower-cased, `fillna('')`. -/
def combinedLower (titleCol : Bool) (r : Review) : List Char :=
  if titleCol then lowerChars ((r.title.getD "") ++ " " ++ (r.text.getD ""))
  else lowerChars (r.text.getD "")

/-- Does the combined text contain at least one keyword of `c`? -/
def categoryMatches (c : Category) (combined : List Char) : Bool :=
  c.keywords.any (fun kw => containsList (lowerChars kw) combined)

/-- `_identify_pain_keyword_reviews`, per record: true iff any keyword of
any category occurs in the combined text.  When the `text` column is absent
(or there are no keywords at all) the source returns an all-`False` series. -/
def identifyPain (taxo : Taxonomy) (titleCol textCol : Bool) (r : Review) : Bool :=
  if !textCol then false
  else taxo.categories.any (fun c => categoryMatches c (combinedLower titleCol r))

/-- `calculate_keyword_density`: per category (in taxonomy order, skipping
categories with no keywords), the number of records whose combined text
contains at least one keyword of the category. -/
def calculateKeywordDensity (taxo : Taxonomy) (titleCol textCol : Bool)
    (reviews : List Review) : List (String × ℤ) :=
  if reviews.isEmpty || !textCol then []
  else
    (taxo.categories.filter (fun c => !c.keywords.isEmpty)).map
      (fun c =>
        (c.name,
         ((reviews.filter (fun r => categoryMatches c (combinedLower titleCol r))).length : ℤ)))

/-! ### `Analyzer._get_mece_pillar_mapping`, `_calculate_pillar_densities`,
`calculate_risk_score` (src/analyzer.py). -/

/-- `_get_mece_pillar_mapping`: the fixed nine-category → three-pillar map. -/
def pillarOf (cat : String) : Option String :=
  if cat = "critical" then some "Functional"
  else if cat = "performance" then some "Functional"
  else if cat = "privacy" then some "Functional"
  else if cat = "scam_financial" then some "Economic"
  else if cat = "subscription" then some "Economic"
  else if cat = "ads" then some "Economic"
  else if cat = "usability" then some "Experience"
  else if cat = "competitor_mention" then some "Experience"
  else if cat = "generic_pain" then some "Experience"
  else none

/-- The three pillar values, in the source's dict insertion order
Functional, Economic, Experience. -/
structure Pillars where
  functional : ℚ
  economic : ℚ
  experience : ℚ
deriving Repr, DecidableEq

/-- One step of the weight-accumulation loop of `_calculate_pillar_densities`:
`pillar_weights[pillar] += count * category_weight`, with the same two
membership guards as the source. -/
def pillarStep (taxo : Taxonomy) (acc : Pillars) (nc : String × ℤ) : Pillars :=
  match pillarOf nc.1 with
  | none => acc
  | some p =>
    match taxo.find nc.1 with
    | none => acc
    | some c =>
      if p = "Functional" then { acc with functional := acc.functional + nc.2 * c.weight }
      else if p = "Economic" then { acc with economic := acc.economic + nc.2 * c.weight }
      else { acc with experience := acc.experience + nc.2 * c.weight }

/-- `_calculate_pillar_densities`: weighted category mass per pillar divided
by the number of reviews; an explicit all-zero result when `total = 0`. -/
def calcPillarDensities (taxo : Taxonomy) (counts : List (String × ℤ))
    (total : ℤ) : Pillars :=
  if total = 0 then ⟨0, 0, 0⟩
  else
    let w := counts.foldl (pillarStep taxo) ⟨0, 0, 0⟩
    ⟨w.functional / total, w.economic / total, w.experience / total⟩

/-- `max(pillar_densities.items(), key=...)[0]`: Python `max` keeps the
first maximal item in iteration order Functional, Economic, Experience.
(The source's `if pillar_densities else "None"` guard is dead: the dict
always carries exactly these three keys.) -/
def primaryPillar (pd : Pillars) : String :=
  let best := ("Functional", pd.functional)
  let best := if pd.economic > best.2 then ("Economic", pd.economic) else best
  let best := if pd.experience > best.2 then ("Experience", pd.experience) else best
  best.1

/-- `calculate_risk_score` (the `volatility_score` argument is unused by the
MECE formula and omitted): returns `(risk_score, pillar_densities,
primary_pillar)`. -/
def calculateRiskScore (taxo : Taxonomy) (slope : ℚ)
    (counts : List (String × ℤ)) (total : ℤ) : ℚ × Pillars × String :=
  let pd := calcPillarDensities taxo counts total
  let totalDensity := pd.functional + pd.economic + pd.experience
  let baseScore := totalDensity * 10
  let volatilityBoost := 1 + max 0 slope
  let finalRisk := min 100 (baseScore * volatilityBoost)
  (roundTo 2 finalRisk, pd, primaryPillar pd)

end Analyzer
end AppScraper

namespace AppScraper
namespace Analyzer

/-! ### `Analyzer.calculate_slope` (src/analyzer.py).

`pain_keyword_reviews.resample('W').size()` groups the dated pain records
into Monday→Sunday calendar weeks labelled by their Sunday and produces one
(possibly zero) count for every week between the first and last label. -/

/-- The `W`(-SUN) resampling label of a day: the Sunday ending its
Monday-started week (day 0 = Monday, so Sundays are `7k + 6`). -/
def wsunLabel (d : ℤ) : ℤ := 7 * (d.fdiv 7) + 6

/-- All weekly labels from `lo` to `hi` (both labels of the same anchor, so
`hi - lo` is a multiple of 7), step 7 — pandas resample emits every bin in
the span, empty ones included. -/
def weekRange (lo hi : ℤ) : List ℤ :=
  (List.range ((hi - lo).toNat / 7 + 1)).map (fun k => lo + 7 * (k : ℤ))

/-- Ordinary least-squares slope of `y` against `x = 0, 1, ...`
(`np.polyfit(x, y, deg=1)` first coefficient). -/
def polyfitSlope (ys : List ℚ) : ℚ :=
  let n : ℚ := ys.length
  let xs : List ℚ := (List.range ys.length).map (fun i => (i : ℚ))
  let sx := xs.sum
  let sy := ys.sum
  let sxy := ((xs.zip ys).map (fun p => p.1 * p.2)).sum
  let sxx := (xs.map (fun x => x * x)).sum
  (n * sxy - sx * sy) / (n * sxx - sx * sx)

/-- The pain-flagged records of the input (`df[has_pain_keyword]`). -/
def painRecs (taxo : Taxonomy) (titleCol textCol : Bool)
    (reviews : List Review) : List Review :=
  reviews.filter (identifyPain taxo titleCol textCol)

/-- The pain-flagged records that survive `dropna(subset=['date'])`. -/
def painDated (taxo : Taxonomy) (titleCol textCol : Bool)
    (reviews : List Review) : List Review :=
  (painRecs taxo titleCol textCol reviews).filter (fun r => r.date.isSome)

/-- The weekly resampling label of a (dated) record. -/
def wsunLabelOf (r : Review) : ℤ := wsunLabel (r.date.getD 0)

/-- The weekly bucket labels of `calculate_slope`, first to last, gaps
included (`resample('W').size()` index). -/
def slopeBuckets (taxo : Taxonomy) (titleCol textCol : Bool)
    (reviews : List Review) : List ℤ :=
  let labels := (painDated taxo titleCol textCol reviews).map wsunLabelOf
  match labels with
  | [] => []
  | a :: rest => weekRange (rest.foldl min a) (rest.foldl max a)

/-- `calculate_slope`, with the DataFrame's column layout passed explicitly
(the caller `analyze` computes it from the raw records). -/
def calculateSlopeAux (taxo : Taxonomy) (titleCol textCol : Bool)
    (reviews : List Review) : ℚ :=
  if reviews.isEmpty then 0
  else if (painRecs taxo titleCol textCol reviews).length < 2 then 0
  else if (painDated taxo titleCol textCol reviews).length < 2 then 0
  else
    let labels := (painDated taxo titleCol textCol reviews).map wsunLabelOf
    let buckets := slopeBuckets taxo titleCol textCol reviews
    if buckets.length < 2 then 0
    else polyfitSlope (buckets.map (fun b => (labels.count b : ℚ)))

/-- `calculate_slope` on a stand-alone DataFrame: column presence read off
the records themselves. -/
def calculateSlope (taxo : Taxonomy) (reviews : List Review) : ℚ :=
  calculateSlopeAux taxo (colSome Review.title reviews) (colSome Review.text reviews) reviews

end Analyzer
end AppScraper

namespace AppScraper
namespace Analyzer

/-! ### `Analyzer.analyze` (src/analyzer.py): the full per-entity pipeline.

The four date aliases, four score aliases and the text/title fields of the
raw dicts are already folded into the canonical `Review` fields; `now` is
the (day-granularity) time of the run, entering through the
`filter_by_date` cutoff, through the stamp given to entirely undated
corpora, and through the `analysis_date` field of the output. -/

/-- Score normalization of step 3: coerce, `fillna(3)`, clip to `[1, 5]`.
When the score column is absent every score becomes 3, which coincides with
`fillna(3)` on an all-missing column. -/
def clampScore (s : ℤ) : ℤ := min 5 (max 1 s)

/-- Steps 2–3 of `analyze`: resolve the date column (records with
unparsable dates are dropped when the column exists; when no date column
exists every record is stamped with the current time) and normalize
scores. -/
def normalizeReviews (now : ℤ) (reviews : List Review) : List Review :=
  let withDates :=
    if colSome Review.date reviews then reviews.filter (fun r => r.date.isSome)
    else reviews.map (fun r => { r with date := some now })
  withDates.map (fun r => { r with score := some (clampScore (r.score.getD 3)) })

/-- `filter_by_date`: keep records dated on or after `now - daysBack`
(an empty frame is returned unchanged; a missing date compares false). -/
def filterByDate (now daysBack : ℤ) (rs : List Review) : List Review :=
  if rs.isEmpty then rs
  else rs.filter (fun r =>
    match r.date with
    | some d => decide (now - daysBack ≤ d)
    | none => false)

/-- Ascending insertion sort of strings (`groupby(sort=True)` key order;
Python compares strings by code point, as Lean does). -/
def insertAscStr (a : String) : List String → List String
  | [] => [a]
  | b :: bs => if strLt a b then a :: b :: bs else b :: insertAscStr a bs

def sortStringsAsc (l : List String) : List String :=
  l.foldl (fun acc a => insertAscStr a acc) []

/-- First occurrences, in order. -/
def dedupKeep (l : List String) : List String :=
  l.foldl (fun acc a => if acc.contains a then acc else acc ++ [a]) []

/-- `df_filtered[has_pain].groupby('version').size()`: counts per version
value, missing versions excluded, keys in ascending order. -/
def versionCounts (rows : List Review) : List (String × ℤ) :=
  let vs := rows.filterMap Review.version
  (sortStringsAsc (dedupKeep vs)).map (fun v => (v, (vs.count v : ℤ)))

/-- `idxmax`/`max` over the grouped counts: the first maximal entry in key
order. -/
def argmaxFirst : List (String × ℤ) → Option (String × ℤ)
  | [] => none
  | p :: rest => some (rest.foldl (fun best q => if q.2 > best.2 then q else best) p)

/-- Step 10 of `analyze`: flag a broken update when one version carries
more than 30% of the pain-flagged reviews. -/
def brokenUpdate (versionCol : Bool) (negRows : List Review) (negCount : ℤ) :
    Bool × Option String :=
  if !versionCol then (false, none)
  else
    match argmaxFirst (versionCounts negRows) with
    | none => (false, none)
    | some p => if (p.2 : ℚ) > (negCount : ℚ) * (3/10) then (true, some p.1) else (false, none)

/-- One row of `signals.top_pain_categories`. -/
structure TopCategory where
  category : String
  count : ℤ
  weight : ℚ
deriving Repr, DecidableEq

/-- Step 11 of `analyze`: categories with positive count, sorted stably by
impact `count × weight` descending, top 5. -/
def topPainCategories (taxo : Taxonomy) (counts : List (String × ℤ)) :
    List TopCategory :=
  let cats := counts.filterMap (fun nc =>
    if (0 : ℤ) < nc.2 then
      match taxo.find nc.1 with
      | some c => some (TopCategory.mk nc.1 nc.2 c.weight)
      | none => none
    else none)
  (stableSortDesc (fun tc => (tc.count : ℚ) * tc.weight) cats).take 5

/-- `astype(str)` of one cell: pandas renders a missing value as `"nan"`. -/
def cellStr (o : Option String) : String := o.getD "nan"

/-- `review_text` of step 12: `str(review.get('text', review.get('title', '')))`. -/
def evidText (titleCol textCol : Bool) (r : Review) : String :=
  if textCol then cellStr r.text
  else if titleCol then cellStr r.title
  else ""

/-- First `n` characters of a string (`s[:n]`). -/
def takeChars (n : ℕ) (s : String) : String := (s.toList.take n).asString

/-- Step 12 of `analyze`: the five longest pain-flagged review texts
(`nlargest(5, length, keep='first')` = stable descending sort by length),
nonempty ones truncated to 200 characters. -/
def evidenceOf (titleCol textCol : Bool) (negRows : List Review) : List String :=
  if negRows.isEmpty then []
  else if !(textCol || titleCol) then []
  else
    let lenKey := fun r => ((cellStr (if textCol then r.text else r.title)).length : ℚ)
    ((stableSortDesc lenKey negRows).take 5).filterMap (fun r =>
      let t := evidText titleCol textCol r
      if t = "" then none else some (takeChars 200 t))

/-- `metrics` of the output schema. -/
structure Metrics where
  totalReviews90d : ℤ
  negativeRatio : ℚ
  volatilitySlope : ℚ
  riskScore : ℚ
deriving Repr, DecidableEq

/-- `signals` of the output schema. -/
structure Signals where
  brokenUpdateDetected : Bool
  suspectedVersion : Option String
  topPainCategories : List TopCategory
  pillarDensities : Pillars
  primaryPillar : String
deriving Repr, DecidableEq

/-- The `schema_app_gap.json` structure built by `analyze`.
`analysisDate` carries the run-time stamp (`strftime('%Y-%m-%d')` in the
source, the day number here). -/
structure AnalysisResult where
  appName : String
  analysisDate : ℤ
  metrics : Metrics
  signals : Signals
  evidence : List String
deriving Repr, DecidableEq

/-- `_empty_analysis_result`: the explicit empty schema, with the
`primary_pillar` sentinel `"None"`. -/
def emptyAnalysisResult (appName : String) (now : ℤ) : AnalysisResult :=
  ⟨appName, now,
   ⟨0, 0, 0, 0⟩,
   ⟨false, none, [], ⟨0, 0, 0⟩, "None"⟩,
   []⟩

/-- Rounding of the pillar densities in the output dict (4 decimals). -/
def roundPillars (pd : Pillars) : Pillars :=
  ⟨roundTo 4 pd.functional, roundTo 4 pd.economic, roundTo 4 pd.experience⟩

/-- Steps 5–12 of `analyze`, operating on the date-filtered frame; the run
time does not occur in this part of the pipeline. -/
def analyzeCore (taxo : Taxonomy) (titleCol textCol versionCol : Bool)
    (dfF : List Review) : Metrics × Signals × List String :=
  let total : ℤ := dfF.length
  let negRows := dfF.filter (identifyPain taxo titleCol textCol)
  let negCount : ℤ := negRows.length
  let negRatio : ℚ := if 0 < total then (negCount : ℚ) / (total : ℚ) else 0
  let slope := calculateSlopeAux taxo titleCol textCol dfF
  let counts := calculateKeywordDensity taxo titleCol textCol dfF
  let rsc := calculateRiskScore taxo slope counts total
  let bu := brokenUpdate versionCol negRows negCount
  (⟨total, roundTo 3 negRatio, roundTo 4 slope, rsc.1⟩,
   ⟨bu.1, bu.2, topPainCategories taxo counts, roundPillars rsc.2.1, rsc.2.2⟩,
   evidenceOf titleCol textCol negRows)

/-- `Analyzer.analyze`: the full pipeline, with the run time `now` explicit. -/
def analyze (taxo : Taxonomy) (reviews : List Review) (appName : String)
    (daysBack now : ℤ) : AnalysisResult :=
  if reviews.isEmpty then emptyAnalysisResult appName now
  else
    let titleCol := colSome Review.title reviews
    let textCol := colSome Review.text reviews
    let versionCol := colSome Review.version reviews
    let dfF := filterByDate now daysBack (normalizeReviews now reviews)
    if dfF.isEmpty then emptyAnalysisResult appName now
    else
      let core := analyzeCore taxo titleCol textCol versionCol dfF
      ⟨appName, now, core.1, core.2.1, core.2.2⟩

/-- Erase the `analysis_date` stamp (the comparison of claim C2 excludes
it). -/
def eraseDate (a : AnalysisResult) : AnalysisResult := { a with analysisDate := 0 }

end Analyzer
end AppScraper

namespace AppScraper

/-- Increment the entry for `g` in an insertion-ordered association list
(Python `dict`/`Counter` update). -/
def bumpCount (acc : List (String × ℤ)) (g : String) : List (String × ℤ) :=
  if acc.any (fun p => p.1 = g) then
    acc.map (fun p => if p.1 = g then (p.1, p.2 + 1) else p)
  else acc ++ [(g, 1)]

namespace Intelligence

/-! ### `ForensicAnalyzer` (src/intelligence.py). -/

/-- A row of the DataFrame handed to `detect_event_timeline`: normalized
`date` (day number; `none` = `NaT`), `text` and optional `version` column
value. -/
structure IRec where
  date : Option ℤ := none
  text : String := ""
  version : Option String := none
deriving Repr, DecidableEq

/-- `_has_pain_keyword`: plain case-insensitive substring search over every
keyword of every category. -/
def hasPainKeyword (taxo : Taxonomy) (text : String) : Bool :=
  taxo.categories.any (fun c =>
    c.keywords.any (fun kw => containsList (lowerChars kw) (lowerChars text)))

/-- `WHALE_DOMAIN_VOCAB` (a Python set literal; its duplicate `"export"`
collapses). -/
def whaleVocab : List String :=
  ["latency", "vector", "workflow", "pipeline", "integration", "api",
   "batch", "export", "sync", "sync failed", "credits", "quota",
   "render", "4k", "resolution", "frame rate"]

/-- `_is_whale_review`: more than 40 whitespace-separated words, or any
domain-vocabulary term as a substring. -/
def isWhaleReview (text : String) : Bool :=
  if text = "" then false
  else
    let tl := lowerChars text
    if 40 < (runsBy (fun c => !isWs c) tl).length then true
    else whaleVocab.any (fun v => containsList (lowerChars v) tl)

/-- `_get_pain_weight`: 0 without pain, `WHALE_MULTIPLIER = 3.0` for whale
reviews, else 1. -/
def getPainWeight (hasPain whale : Bool) : ℚ :=
  if !hasPain then 0 else if whale then 3 else 1

/-- The date-valid rows as `(day, text, version)`, with the version column
`fillna('')` (an absent column and an all-missing column coincide). -/
def datedRows (rows : List IRec) : List (ℤ × String × String) :=
  rows.filterMap (fun r => r.date.map (fun d => (d, r.text, r.version.getD "")))

/-- The `W-MON` resampling label of a day: the Monday ending its
Tuesday-started bin (pandas `W-MON` is right-closed on end-of-day edges). -/
def wmonLabel (d : ℤ) : ℤ := 7 * ((d + 6).fdiv 7)

/-- One row of the weekly aggregation: label, `total` (record count) and
whale-adjusted `pain_count`. -/
structure WeekBucket where
  label : ℤ
  total : ℤ
  painCount : ℚ
deriving Repr, DecidableEq

/-- `df.resample('W-MON').agg(total, pain_count)`: one bucket per week from
the first to the last observed label, empty weeks included. -/
def weeklyBuckets (taxo : Taxonomy) (rows : List IRec) : List WeekBucket :=
  let dl := datedRows rows
  match dl.map (fun t => wmonLabel t.1) with
  | [] => []
  | a :: rest =>
    (Analyzer.weekRange (rest.foldl min a) (rest.foldl max a)).map (fun b =>
      let recs := dl.filter (fun t => wmonLabel t.1 = b)
      ⟨b, (recs.length : ℤ),
       (recs.map (fun t => getPainWeight (hasPainKeyword taxo t.2.1) (isWhaleReview t.2.1))).sum⟩)

/-- `weekly = weekly[weekly['total'] >= min_reviews_per_week]`: the noise
filter of `detect_event_timeline`. -/
def weeklyFiltered (taxo : Taxonomy) (rows : List IRec) (minPerWeek : ℤ) :
    List WeekBucket :=
  (weeklyBuckets taxo rows).filter (fun wb => minPerWeek ≤ wb.total)

/-- Mean of a window (`rolling(...).mean()`). -/
def listMean (xs : List ℚ) : ℚ := xs.sum / (xs.length : ℚ)

/-- Sample variance of a window: pandas `rolling(...).std()` squared
(ddof = 1); a single observation gives `NaN`, which the source
`fillna(0)`s, modelled as variance 0. -/
def sampleVar (xs : List ℚ) : ℚ :=
  if xs.length ≤ 1 then 0
  else (xs.map (fun x => (x - listMean xs) ^ 2)).sum / ((xs.length : ℚ) - 1)

/-- The trailing window of width `w` ending at index `i` (inclusive), as
pandas rolling with window `w` and min_periods 1 sees it. -/
def rollingWindow (xs : List ℚ) (w i : ℕ) : List ℚ :=
  (xs.take (i + 1)).drop (i + 1 - w)

/-- `density > rolling_mean + 2·rolling_std`.  With `std = √var ≥ 0` this
is equivalent to `mean < d ∧ (d - mean)² > 4·var`, which stays inside ℚ. -/
def isAnomaly (d mean var : ℚ) : Bool :=
  decide (mean < d) && decide (4 * var < (d - mean) ^ 2)

/-- `value_counts()` of a list of strings: counts per distinct value in
first-appearance order (the source's tie order between equal counts is
unspecified; only the maximal count matters to the claims). -/
def valueCounts (l : List String) : List (String × ℕ) :=
  (Analyzer.dedupKeep l).map (fun v => (v, l.count v))

/-- The first entry of maximal count (`vc.index[0]` after the descending
`value_counts` sort). -/
def topOfCounts : List (String × ℕ) → Option (String × ℕ)
  | [] => none
  | p :: rest => some (rest.foldl (fun best q => if best.2 < q.2 then q else best) p)

/-- `_name_spike`: among the records dated within `[week_start,
week_start + 7)`, the most frequent non-empty version string, `"nan"`
excluded. -/
def nameSpike (weekStart : ℤ) (dl : List (ℤ × String × String)) : Option String :=
  let weekRecs := dl.filter (fun t => decide (weekStart ≤ t.1) && decide (t.1 < weekStart + 7))
  if weekRecs.isEmpty then none
  else
    let versions := (weekRecs.map (fun t => t.2.2)).filter (fun v => v ≠ "")
    match topOfCounts (valueCounts versions) with
    | none => none
    | some p => if p.1 = "nan" then none else some p.1

/-- One entry of the returned timeline (`week_str`, rendered `"%Y-%W"` in
the source, is carried as the weekly label day here; `density` is rounded
to 4 decimals, `pain_count` truncated to an integer as `int(...)`). -/
structure TimelineEntry where
  weekLabel : ℤ
  density : ℚ
  total : ℤ
  painCount : ℤ
  event : Option String
  version : Option String
deriving Repr, DecidableEq

/-- `detect_event_timeline`: weekly densities, rolling μ + 2σ anomaly
flags, and named-spike labelling of flagged weeks. -/
def detectEventTimeline (taxo : Taxonomy) (rows : List IRec) (minPerWeek : ℤ) :
    List TimelineEntry :=
  if rows.isEmpty then []
  else
    let dl := datedRows rows
    if dl.isEmpty then []
    else
      let weekly := weeklyFiltered taxo rows minPerWeek
      if weekly.length < 2 then []
      else
        let ds := weekly.map (fun wb => wb.painCount / (wb.total : ℚ))
        let w := min 4 weekly.length
        weekly.enum.map (fun iwb =>
          let d := iwb.2.painCount / (iwb.2.total : ℚ)
          let win := rollingWindow ds w iwb.1
          let flag := isAnomaly d (listMean win) (sampleVar win)
          let vlabel := if flag then nameSpike iwb.2.label dl else none
          let event : Option String :=
            if flag then
              some (match vlabel with
                    | some v => "The Version " ++ v ++ " Spike"
                    | none => "Critical Spike")
            else none
          ⟨iwb.2.label, roundTo 4 d, iwb.2.total, ⌊iwb.2.painCount⌋, event, vlabel⟩)

end Intelligence
end AppScraper

namespace AppScraper
namespace Intelligence

/-! ### `ForensicAnalyzer.extract_semantic_clusters` and
`_fallback_ngrams` (src/intelligence.py).

The sklearn CountVectorizer call — ngram_range (2,3), the stop-word list,
max_features 100, min_df 2 — is an external library; it is modelled from its
documented contract: lower-case, tokenize on `\w\w+` (word-character runs
of length ≥ 2), drop stop words, form 2- and 3-grams per document, keep
terms occurring in at least 2 documents, cap the vocabulary at the 100 most
frequent terms (the library's tie order there is unspecified; modelled as
frequency then alphabetical), and report per-term total counts with the
vocabulary in alphabetical order.  An empty vocabulary raises, which the
source catches by falling back to `_fallback_ngrams`. -/

/-- `STOP_WORDS` of `ForensicAnalyzer`, in source order. -/
def stopWords : List String :=
  ["the", "a", "an", "is", "are", "was", "were", "be", "been", "being",
   "have", "has", "had", "do", "does", "did", "will", "would", "could",
   "should", "may", "might", "must", "shall", "can", "need", "dare",
   "to", "of", "in", "for", "on", "with", "at", "by", "from", "as",
   "into", "through", "during", "before", "after", "above", "below",
   "good", "great", "nice", "love", "best", "awesome", "amazing"]

/-- The generic-phrase filter of the sklearn path. -/
def genericSk : List String :=
  ["good app", "great app", "best app", "nice app", "love it", "love this",
   "this app", "and there", "there s", "it s", "i m", "don t", "can t"]

/-- The generic-phrase filter of the fallback path. -/
def genericFb : List String :=
  ["good app", "great app", "best app", "this app", "and there", "there s",
   "it s", "i m", "don t", "can t", "love it", "love this", "but i", "no way"]

/-- `re.findall(r"\b\w+\b", app_name.lower())`: the entity-name tokens
added to the stop set. -/
def appTokens (appName : String) : List String :=
  (runsBy isWordChar (lowerChars appName)).map (fun cs => cs.asString)

/-- The effective stop set: `STOP_WORDS ∪ app tokens` (only membership
matters). -/
def stopSet (appName : String) : List String :=
  stopWords ++ (appTokens appName).filter (fun w => !stopWords.contains w)

/-- `texts = [t.strip() for t in texts if len(t.strip()) > 3]`. -/
def vecTexts (texts : List String) : List String :=
  (texts.map (fun t => (stripWs t.toList).asString)).filter (fun t => 3 < t.length)

/-- Contiguous `n`-token phrases of a token list, joined by single spaces. -/
def ngramsOf (n : ℕ) (toks : List String) : List String :=
  (List.range (toks.length + 1 - n)).map (fun i =>
    " ".intercalate ((toks.drop i).take n))

/-- The vectorizer's token stream of one document: lower-cased
word-character runs of length ≥ 2, stop words removed. -/
def docTokens (stop : List String) (t : String) : List String :=
  (((runsBy isWordChar (lowerChars t)).filter (fun cs => 2 ≤ cs.length)).map
    (fun cs => cs.asString)).filter (fun w => !stop.contains w)

/-- All 2- and 3-grams of one document. -/
def docNgrams (stop : List String) (t : String) : List String :=
  ngramsOf 2 (docTokens stop t) ++ ngramsOf 3 (docTokens stop t)

/-- Document frequency of a term over the processed corpus. -/
def docFreq (stop : List String) (texts : List String) (term : String) : ℕ :=
  (texts.filter (fun t => (docNgrams stop t).contains term)).length

/-- Total occurrence count of a term over the corpus (`X.sum(axis=0)`). -/
def termTotal (stop : List String) (texts : List String) (term : String) : ℕ :=
  (texts.map (fun t => (docNgrams stop t).count term)).sum

/-- All distinct terms of the corpus, alphabetically. -/
def allTerms (stop : List String) (texts : List String) : List String :=
  Analyzer.sortStringsAsc (Analyzer.dedupKeep ((texts.map (docNgrams stop)).flatten))

/-- The vocabulary after `min_df = 2` pruning. -/
def vocabMinDf2 (stop : List String) (texts : List String) : List String :=
  (allTerms stop texts).filter (fun term => 2 ≤ docFreq stop texts term)

/-- The vocabulary after the `max_features = 100` cap. -/
def limitedVocab (stop : List String) (texts : List String) : List String :=
  let v := vocabMinDf2 stop texts
  if v.length ≤ 100 then v
  else
    Analyzer.sortStringsAsc
      ((stableSortDesc (fun term => (termTotal stop texts term : ℚ)) v).take 100)

/-- The `(term, count)` pairs the vectorizer path produces
(`zip(get_feature_names_out(), counts)`). -/
def skPairs (stop : List String) (texts : List String) : List (String × ℤ) :=
  (limitedVocab stop texts).map (fun term => (term, (termTotal stop texts term : ℤ)))

/-- `_fallback_ngrams`: a plain `Counter` over the bigrams (length > 4, not
generic) and trigrams (length > 6) of each text's non-stop-word tokens;
top `n` by count, ties in first-encounter order (`Counter.most_common`). -/
def fallbackNgrams (texts : List String) (topN : ℕ) : List (String × ℤ) :=
  let grams := (texts.map (fun text =>
    let words := ((runsBy isWordChar (lowerChars text)).map (fun cs => cs.asString)).filter
      (fun w => !stopWords.contains w)
    (ngramsOf 2 words).filter (fun g => 4 < g.length && !genericFb.contains g) ++
    (ngramsOf 3 words).filter (fun g => 6 < g.length))).flatten
  (stableSortDesc (fun p => (p.2 : ℚ)) (grams.foldl bumpCount [])).take topN

/-- `extract_semantic_clusters`, with the sklearn availability flag
(`HAS_SKLEARN`, a property of the running environment) explicit. -/
def extractSemanticClusters (hasSklearn : Bool) (appName : String)
    (texts0 : List String) (topN : ℕ) : List (String × ℤ) :=
  if (texts0.map String.length).sum = 0 then []
  else
    let texts := vecTexts texts0
    let stop := stopSet appName
    if hasSklearn then
      if (vocabMinDf2 stop texts).isEmpty then fallbackNgrams texts topN
      else
        let pairs := (skPairs stop texts).filter (fun p =>
          !genericSk.contains p.1 && 2 ≤ (runsBy (fun c => !isWs c) p.1.toList).length)
        (stableSortDesc (fun p => (p.2 : ℚ)) pairs).take topN
    else fallbackNgrams texts topN

/-! ### `ForensicAnalyzer.map_competitor_migration` (src/intelligence.py). -/

/-- The verbs of the T-018 churn regex
`(?:switched|moved|migrated|changed)\s+to\s+{competitor}`. -/
def churnVerbs : List String := ["switched", "moved", "migrated", "changed"]

/-- Suffixes reachable by consuming one or more leading whitespace
characters (`\s+` with full backtracking). -/
def wsSuffixes : List Char → List (List Char)
  | [] => []
  | c :: rest => if isWs c then rest :: wsSuffixes rest else []

/-- Does the churn pattern match at the head of `s`? -/
def churnAt (comp : List Char) (s : List Char) : Bool :=
  churnVerbs.any (fun v =>
    startsList v.toList s &&
    (wsSuffixes (s.drop v.toList.length)).any (fun s1 =>
      startsList ['t', 'o'] s1 &&
      (wsSuffixes (s1.drop 2)).any (fun s2 => startsList comp s2)))

/-- `re.search` of the churn pattern anywhere in the lower-cased text. -/
def churnMatch (comp text : List Char) : Bool := text.tails.any (churnAt comp)

/-- `comp.lower().replace('_', ' ')`. -/
def compLower (comp : String) : List Char :=
  (lowerChars comp).map (fun c => if c = '_' then ' ' else c)

/-- One element of the migration output (`type` is always `"churn"`). -/
structure MigrationEdge where
  competitor : String
  mtype : String
  count : ℤ
deriving Repr, DecidableEq

/-- `map_competitor_migration`: per text of at least 5 stripped characters,
count each competitor whose name occurs in the text and whose churn pattern
matches; comparison phrasing contributes nothing. -/
def mapCompetitorMigration (texts : List String) (competitors : List String) :
    List MigrationEdge :=
  if texts.isEmpty || competitors.isEmpty then []
  else
    let counts := texts.foldl (fun (acc : List (String × ℤ)) text =>
      if (stripWs text.toList).length < 5 then acc
      else
        let tl := lowerChars text
        competitors.foldl (fun acc2 comp =>
          let cl := compLower comp
          if !containsList cl tl then acc2
          else if churnMatch cl tl then bumpCount acc2 comp
          else acc2) acc) []
    counts.map (fun p => ⟨p.1, "churn", p.2⟩)

end Intelligence
end AppScraper

namespace AppScraper
namespace Analyzer

/-! ### Reference formulations of the trend estimator (claim C4).

`slopeDistinctWeeksClaim` transcribes the claim's own wording (distinct
observed weeks only, no gap-filling); `slopeGapFilledWeeks` transcribes the
gap-filled reading (every consecutive calendar week between the first and
the last observed week, unobserved weeks counting zero).  Both phrase the
weeks as Monday week-starts, as the claim does. -/

/-- The Monday starting the calendar week of day `d`. -/
def mondayStart (d : ℤ) : ℤ := 7 * d.fdiv 7

/-- The Monday week-start of a (dated) record. -/
def mondayStartOf (r : Review) : ℤ := mondayStart (r.date.getD 0)

def insertAscInt (a : ℤ) : List ℤ → List ℤ
  | [] => [a]
  | b :: bs => if a < b then a :: b :: bs else b :: insertAscInt a bs

def sortIntsAsc (l : List ℤ) : List ℤ :=
  l.foldl (fun acc a => insertAscInt a acc) []

def dedupInts (l : List ℤ) : List ℤ :=
  l.foldl (fun acc a => if acc.contains a then acc else acc ++ [a]) []

/-- Claim C4's description of `calculate_slope`: least squares over the
distinct weeks actually observed, in chronological order, with week_index
`0, 1, 2, ...` — no bucket for unobserved weeks. -/
def slopeDistinctWeeksClaim (taxo : Taxonomy) (reviews : List Review) : ℚ :=
  if reviews.isEmpty then 0
  else
    let titleCol := colSome Review.title reviews
    let textCol := colSome Review.text reviews
    if (painRecs taxo titleCol textCol reviews).length < 2 then 0
    else
      let dated := painDated taxo titleCol textCol reviews
      if dated.length < 2 then 0
      else
        let weeks := sortIntsAsc (dedupInts (dated.map mondayStartOf))
        if weeks.length < 2 then 0
        else
          polyfitSlope (weeks.map (fun wk =>
            ((dated.filter (fun r => mondayStartOf r = wk)).length : ℚ)))

/-- The gap-filled reading of `calculate_slope`: one bucket per calendar
week (Monday start) from the first to the last observed week, consecutive,
with unobserved weeks counting zero. -/
def slopeGapFilledWeeks (taxo : Taxonomy) (reviews : List Review) : ℚ :=
  if reviews.isEmpty then 0
  else
    let titleCol := colSome Review.title reviews
    let textCol := colSome Review.text reviews
    if (painRecs taxo titleCol textCol reviews).length < 2 then 0
    else
      let dated := painDated taxo titleCol textCol reviews
      if dated.length < 2 then 0
      else
        match dated.map mondayStartOf with
        | [] => 0
        | m :: rest =>
          let weeks := weekRange (rest.foldl min m) (rest.foldl max m)
          if weeks.length < 2 then 0
          else
            polyfitSlope (weeks.map (fun wk =>
              ((dated.filter (fun r => mondayStartOf r = wk)).length : ℚ)))

end Analyzer

/-! ### Concrete instances used by the witnesses and counterexamples. -/

/-- A one-category taxonomy: `critical` with keyword `crash`, weight 10. -/
def taxoCrash : Taxonomy := ⟨[⟨"critical", ["crash"], 10⟩]⟩

/-- Three pain records, two in one calendar week and one three weeks later
(weeks in between unobserved). -/
def rsGap : List Review :=
  [{ text := some "crash", date := some 0 },
   { text := some "crash", date := some 0 },
   { text := some "crash", date := some 21 }]

/-- A single dated pain record. -/
def rsOne : List Review :=
  [{ text := some "crash app", date := some 0, score := some 1 }]

/-- Six same-week records (for the one-retained-week edge of the anomaly
detector). -/
def rsOneWeek : List Intelligence.IRec :=
  [⟨some 1, "crash", none⟩, ⟨some 1, "ok", none⟩, ⟨some 2, "crash", none⟩,
   ⟨some 3, "ok", none⟩, ⟨some 4, "ok", none⟩, ⟨some 5, "ok", none⟩]

/-- Two weeks, one record each: a calm week then an all-pain week. -/
def rsTwoWeeks : List Intelligence.IRec :=
  [⟨some 1, "crash", none⟩, ⟨some 8, "ok", none⟩]

/-- A textbook spike: five calm reviews in one week, five crash reviews
(all on version 2.0) the next week. -/
def rsSpike : List Intelligence.IRec :=
  [⟨some 1, "fine", none⟩, ⟨some 2, "fine", none⟩, ⟨some 3, "fine", none⟩,
   ⟨some 4, "fine", none⟩, ⟨some 5, "fine", none⟩,
   ⟨some 8, "crash", some "2.0"⟩, ⟨some 9, "crash", some "2.0"⟩,
   ⟨some 10, "crash", some "2.0"⟩, ⟨some 11, "crash", some "2.0"⟩,
   ⟨some 12, "crash", some "2.0"⟩]

end AppScraper

namespace AppScraper

/-! ## Helper lemmas -/

theorem roundHalfEven_nonneg (q : ℚ) (h : 0 ≤ q) : 0 ≤ roundHalfEven q := by
  have hf : (0 : ℤ) ≤ ⌊q⌋ := Int.floor_nonneg.mpr h
  unfold roundHalfEven
  dsimp only
  split
  · exact hf
  · split
    · omega
    · split <;> omega

theorem roundHalfEven_le (q : ℚ) (c : ℤ) (h : q ≤ (c : ℚ)) : roundHalfEven q ≤ c := by
  have hf : ⌊q⌋ ≤ c := by
    have := Int.floor_le_floor h
    simpa using this
  have hlt : ¬ q - (⌊q⌋ : ℚ) < 1/2 → ⌊q⌋ < c := by
    intro hge
    have h1 : (⌊q⌋ : ℚ) < q := by
      have : (1 : ℚ)/2 ≤ q - ⌊q⌋ := le_of_not_lt hge
      linarith
    have : (⌊q⌋ : ℚ) < (c : ℚ) := lt_of_lt_of_le h1 h
    exact_mod_cast this
  unfold roundHalfEven
  dsimp only
  split
  · exact hf
  · split
    · have := hlt (by assumption)
      omega
    · split <;> (have hc := hlt (by assumption); omega)

theorem roundTo_nonneg (d : ℕ) (q : ℚ) (h : 0 ≤ q) : 0 ≤ roundTo d q := by
  unfold roundTo
  apply div_nonneg
  · exact_mod_cast roundHalfEven_nonneg _ (mul_nonneg h (by positivity))
  · positivity

theorem roundTo_le (d : ℕ) (q : ℚ) (c : ℤ) (h : q ≤ (c : ℚ)) :
    roundTo d q ≤ (c : ℚ) := by
  unfold roundTo
  rw [div_le_iff₀ (by positivity)]
  have h1 : q * 10 ^ d ≤ ((c * 10 ^ d : ℤ) : ℚ) := by
    push_cast
    exact mul_le_mul_of_nonneg_right h (by positivity)
  calc (roundHalfEven (q * 10 ^ d) : ℚ)
      ≤ ((c * 10 ^ d : ℤ) : ℚ) := by exact_mod_cast roundHalfEven_le _ _ h1
    _ = (c : ℚ) * 10 ^ d := by push_cast; ring

namespace Analyzer

theorem pillarStep_nonneg (taxo : Taxonomy)
    (hw : ∀ c ∈ taxo.categories, 0 ≤ c.weight)
    (acc : Pillars) (nc : String × ℤ) (hnc : 0 ≤ nc.2)
    (h : 0 ≤ acc.functional ∧ 0 ≤ acc.economic ∧ 0 ≤ acc.experience) :
    0 ≤ (pillarStep taxo acc nc).functional ∧
      0 ≤ (pillarStep taxo acc nc).economic ∧
      0 ≤ (pillarStep taxo acc nc).experience := by
  obtain ⟨h1, h2, h3⟩ := h
  unfold pillarStep
  cases hp : pillarOf nc.1 with
  | none => exact ⟨h1, h2, h3⟩
  | some p =>
    cases hfind : taxo.find nc.1 with
    | none => exact ⟨h1, h2, h3⟩
    | some c =>
      have hc : c ∈ taxo.categories := by
        have := List.mem_of_find?_eq_some hfind
        exact this
      have hprod : 0 ≤ (nc.2 : ℚ) * c.weight :=
        mul_nonneg (by exact_mod_cast hnc) (hw c hc)
      dsimp only
      split
      · exact ⟨by dsimp; linarith, h2, h3⟩
      · split
        · exact ⟨h1, by dsimp; linarith, h3⟩
        · exact ⟨h1, h2, by dsimp; linarith⟩

theorem foldl_pillarStep_nonneg (taxo : Taxonomy)
    (hw : ∀ c ∈ taxo.categories, 0 ≤ c.weight) :
    ∀ (l : List (String × ℤ)) (acc : Pillars),
      (∀ p ∈ l, 0 ≤ p.2) →
      (0 ≤ acc.functional ∧ 0 ≤ acc.economic ∧ 0 ≤ acc.experience) →
      (0 ≤ (l.foldl (pillarStep taxo) acc).functional ∧
        0 ≤ (l.foldl (pillarStep taxo) acc).economic ∧
        0 ≤ (l.foldl (pillarStep taxo) acc).experience) := by
  intro l
  induction l with
  | nil => intro acc _ hacc; simpa using hacc
  | cons a t ih =>
    intro acc hl hacc
    simp only [List.foldl_cons]
    exact ih _ (fun p hp => hl p (List.mem_cons_of_mem a hp))
      (pillarStep_nonneg taxo hw acc a (hl a (List.mem_cons_self a t)) hacc)

theorem calcPillarDensities_nonneg (taxo : Taxonomy)
    (counts : List (String × ℤ)) (total : ℤ)
    (hc : ∀ p ∈ counts, 0 ≤ p.2)
    (hw : ∀ c ∈ taxo.categories, 0 ≤ c.weight)
    (ht : 0 ≤ total) :
    0 ≤ (calcPillarDensities taxo counts total).functional ∧
      0 ≤ (calcPillarDensities taxo counts total).economic ∧
      0 ≤ (calcPillarDensities taxo counts total).experience := by
  unfold calcPillarDensities
  split
  · norm_num
  · have hpos : (0 : ℚ) ≤ (total : ℚ) := by exact_mod_cast ht
    obtain ⟨h1, h2, h3⟩ :=
      foldl_pillarStep_nonneg taxo hw counts ⟨0, 0, 0⟩ hc (by norm_num)
    exact ⟨div_nonneg h1 hpos, div_nonneg h2 hpos, div_nonneg h3 hpos⟩

/-- Claim C1: for every category-count map with non-negative counts, every
taxonomy whose category weights are all ≥ 0, every total review count
N ≥ 0 and every slope value, the risk score returned by
`calculate_risk_score` satisfies `0 ≤ risk_score ≤ 100`. -/
theorem c1_risk_score_bounds (taxo : Taxonomy) (slope : ℚ)
    (counts : List (String × ℤ)) (total : ℤ)
    (hc : ∀ p ∈ counts, 0 ≤ p.2)
    (hw : ∀ c ∈ taxo.categories, 0 ≤ c.weight)
    (ht : 0 ≤ total) :
    0 ≤ (calculateRiskScore taxo slope counts total).1 ∧
      (calculateRiskScore taxo slope counts total).1 ≤ 100 := by
  obtain ⟨h1, h2, h3⟩ := calcPillarDensities_nonneg taxo counts total hc hw ht
  unfold calculateRiskScore
  dsimp only
  have hboost : (0 : ℚ) ≤ 1 + max 0 slope :=
    add_nonneg zero_le_one (le_max_left 0 slope)
  have hbase : (0 : ℚ) ≤
      ((calcPillarDensities taxo counts total).functional +
        (calcPillarDensities taxo counts total).economic +
        (calcPillarDensities taxo counts total).experience) * 10 := by
    have : (0 : ℚ) ≤ (calcPillarDensities taxo counts total).functional +
        (calcPillarDensities taxo counts total).economic +
        (calcPillarDensities taxo counts total).experience := by linarith
    linarith
  constructor
  · exact roundTo_nonneg 2 _ (le_min (by norm_num) (mul_nonneg hbase hboost))
  · have h100 := roundTo_le 2 (min 100
      (((calcPillarDensities taxo counts total).functional +
        (calcPillarDensities taxo counts total).economic +
        (calcPillarDensities taxo counts total).experience) * 10 *
        (1 + max 0 slope))) 100 (by
          push_cast
          exact min_le_left _ _)
    exact_mod_cast h100

/-- Witness for C1, at the spec's worked example (counts `{critical: 2}`,
weight 10, N = 10, slope 0.2). -/
theorem c1_risk_score_bounds_witness :
    0 ≤ (calculateRiskScore taxoCrash (1/5) [("critical", 2)] 10).1 ∧
      (calculateRiskScore taxoCrash (1/5) [("critical", 2)] 10).1 ≤ 100 :=
  c1_risk_score_bounds taxoCrash (1/5) [("critical", 2)] 10
    (by decide) (by norm_num [taxoCrash]) (by decide)

end Analyzer
end AppScraper

namespace AppScraper
namespace Analyzer

/-- Claim C5, counterexample: with N = 0 (and any taxonomy)
`calculate_risk_score` returns primary pillar `"Functional"` — the first
key of the always-three-key density dict under Python's `max` — not the
claimed sentinel `"None"`. -/
theorem c5_counterexample :
    calculateRiskScore taxoCrash 0 [] 0 = (0, ⟨0, 0, 0⟩, "Functional") ∧
      (calculateRiskScore taxoCrash 0 [] 0).2.2 ≠ "None" := by
  constructor
  · unfold calculateRiskScore calcPillarDensities primaryPillar
    norm_num [roundTo, roundHalfEven]
  · unfold calculateRiskScore calcPillarDensities primaryPillar
    norm_num
    decide

/-- Claim C5 (amended): when the total record count N is 0,
`calculate_risk_score` returns risk score 0 and all-zero pillar densities
without any division error, and its `primary_pillar` is `"Functional"`
(the tie-break of `max` over the three equal zero densities); the `"None"`
sentinel appears only in the pipeline-level empty result
(`_empty_analysis_result`). -/
theorem c5_amended_risk_score_at_zero (taxo : Taxonomy) (slope : ℚ)
    (counts : List (String × ℤ)) :
    calculateRiskScore taxo slope counts 0 = (0, ⟨0, 0, 0⟩, "Functional") := by
  unfold calculateRiskScore calcPillarDensities primaryPillar
  have hmin : min (100 : ℚ) ((0 + 0 + 0) * 10 * (1 + max 0 slope)) = 0 := by
    rw [min_eq_right] <;> norm_num
  norm_num [hmin, roundTo, roundHalfEven]

end Analyzer
end AppScraper

namespace AppScraper
namespace Analyzer

theorem foldl_min_all_eq (a : ℤ) :
    ∀ l : List ℤ, (∀ x ∈ l, x = a) → l.foldl min a = a := by
  intro l
  induction l with
  | nil => intro _; rfl
  | cons b t ih =>
    intro h
    have hb : b = a := h b (List.mem_cons_self b t)
    simp only [List.foldl_cons, hb, min_self]
    exact ih (fun x hx => h x (List.mem_cons_of_mem b hx))

theorem foldl_max_all_eq (a : ℤ) :
    ∀ l : List ℤ, (∀ x ∈ l, x = a) → l.foldl max a = a := by
  intro l
  induction l with
  | nil => intro _; rfl
  | cons b t ih =>
    intro h
    have hb : b = a := h b (List.mem_cons_self b t)
    simp only [List.foldl_cons, hb, max_self]
    exact ih (fun x hx => h x (List.mem_cons_of_mem b hx))

theorem weekRange_self (a : ℤ) : weekRange a a = [a] := by
  unfold weekRange
  rw [sub_self]
  have h1 : List.range ((0 : ℤ).toNat / 7 + 1) = [0] := by decide
  rw [h1]
  simp

theorem slopeBuckets_single (taxo : Taxonomy) (tc xc : Bool)
    (reviews : List Review) (r0 : Review) (tl : List Review)
    (hpd : painDated taxo tc xc reviews = r0 :: tl)
    (hall : ∀ r ∈ painDated taxo tc xc reviews,
      ∀ s ∈ painDated taxo tc xc reviews, wsunLabelOf r = wsunLabelOf s) :
    slopeBuckets taxo tc xc reviews = [wsunLabelOf r0] := by
  have hmem0 : r0 ∈ painDated taxo tc xc reviews := by
    rw [hpd]; exact List.mem_cons_self r0 tl
  have hall' : ∀ x ∈ tl.map wsunLabelOf, x = wsunLabelOf r0 := by
    intro x hx
    obtain ⟨s, hs, rfl⟩ := List.mem_map.mp hx
    have hsmem : s ∈ painDated taxo tc xc reviews := by
      rw [hpd]; exact List.mem_cons_of_mem r0 hs
    exact hall s hsmem r0 hmem0
  unfold slopeBuckets
  rw [hpd]
  simp only [List.map_cons]
  rw [foldl_min_all_eq _ _ hall', foldl_max_all_eq _ _ hall', weekRange_self]

/-- Claim C3: `calculate_slope` returns exactly 0 (and raises no error;
the model is a total function) whenever at most one pain-flagged record has
a valid date, and also whenever all pain-flagged dated records fall within
one calendar week (fewer than 2 distinct weekly buckets). -/
theorem c3_slope_zero_insufficient (taxo : Taxonomy) (reviews : List Review)
    (h : (painDated taxo (colSome Review.title reviews) (colSome Review.text reviews)
            reviews).length ≤ 1 ∨
         ∀ r ∈ painDated taxo (colSome Review.title reviews) (colSome Review.text reviews)
            reviews,
          ∀ s ∈ painDated taxo (colSome Review.title reviews) (colSome Review.text reviews)
            reviews, wsunLabelOf r = wsunLabelOf s) :
    calculateSlope taxo reviews = 0 := by
  unfold calculateSlope calculateSlopeAux
  dsimp only
  split_ifs with h1 h2 h3 h4
  · rfl
  · rfl
  · rfl
  · rfl
  · exfalso
    have hd2 : 2 ≤ (painDated taxo (colSome Review.title reviews)
        (colSome Review.text reviews) reviews).length := by omega
    have hall := h.resolve_left (by omega)
    obtain ⟨r0, tl, hpd⟩ : ∃ r0 tl,
        painDated taxo (colSome Review.title reviews) (colSome Review.text reviews)
          reviews = r0 :: tl := by
      cases hpd : painDated taxo (colSome Review.title reviews)
          (colSome Review.text reviews) reviews with
      | nil => rw [hpd] at hd2; simp at hd2
      | cons r0 tl => exact ⟨r0, tl, rfl⟩
    have hb := slopeBuckets_single taxo _ _ reviews r0 tl hpd hall
    rw [hb] at h4
    simp at h4

/-- Witness for C3: a corpus with exactly one dated pain record. -/
theorem c3_slope_zero_insufficient_witness :
    (painDated taxoCrash (colSome Review.title rsOne) (colSome Review.text rsOne)
        rsOne).length ≤ 1 ∧
      calculateSlope taxoCrash rsOne = 0 :=
  ⟨by decide, c3_slope_zero_insufficient taxoCrash rsOne (Or.inl (by decide))⟩

end Analyzer
end AppScraper

namespace AppScraper
namespace Analyzer

theorem wsunLabelOf_monday (r : Review) : wsunLabelOf r = mondayStartOf r + 6 := rfl

theorem foldl_min_add (c : ℤ) :
    ∀ (l : List ℤ) (a : ℤ),
      (l.map (fun x => x + c)).foldl min (a + c) = l.foldl min a + c := by
  intro l
  induction l with
  | nil => intro a; rfl
  | cons b t ih =>
    intro a
    simp only [List.map_cons, List.foldl_cons, min_add_add_right]
    exact ih (min a b)

theorem foldl_max_add (c : ℤ) :
    ∀ (l : List ℤ) (a : ℤ),
      (l.map (fun x => x + c)).foldl max (a + c) = l.foldl max a + c := by
  intro l
  induction l with
  | nil => intro a; rfl
  | cons b t ih =>
    intro a
    simp only [List.map_cons, List.foldl_cons, max_add_add_right]
    exact ih (max a b)

theorem weekRange_shift (lo hi c : ℤ) :
    weekRange (lo + c) (hi + c) = (weekRange lo hi).map (fun x => x + c) := by
  unfold weekRange
  have h : hi + c - (lo + c) = hi - lo := by ring
  rw [h, List.map_map]
  apply List.map_congr_left
  intro k _
  simp only [Function.comp_apply]
  ring

theorem count_label_shift (dated : List Review) (wk : ℤ) :
    ((dated.map wsunLabelOf).count (wk + 6)) =
      (dated.filter (fun r => mondayStartOf r = wk)).length := by
  have hmap : dated.map wsunLabelOf = dated.map (fun r => mondayStartOf r + 6) := rfl
  rw [hmap, List.count_eq_countP, List.countP_map, ← List.countP_eq_length_filter]
  apply List.countP_congr
  intro r _
  simp only [Function.comp_apply, beq_iff_eq, decide_eq_true_eq]
  omega

/-- Claim C4, counterexample: on three pain records placed in week 0 (twice)
and week 3 (once), `calculate_slope` disagrees with the claim's
distinct-weeks-only description — the resampler emits the two empty weeks
in between as zero-count buckets (code slope −3/10, claimed slope −1). -/
theorem c4_counterexample :
    calculateSlope taxoCrash rsGap ≠ slopeDistinctWeeksClaim taxoCrash rsGap := by
  have hcode : calculateSlope taxoCrash rsGap = -3/10 := by
    have hb : slopeBuckets taxoCrash false true rsGap = [6, 13, 20, 27] := by decide
    have hl : (painDated taxoCrash false true rsGap).map wsunLabelOf = [6, 6, 27] := by
      decide
    have ht : colSome Review.title rsGap = false := by decide
    have hx : colSome Review.text rsGap = true := by decide
    unfold calculateSlope
    rw [ht, hx]
    unfold calculateSlopeAux
    rw [if_neg (by decide), if_neg (by decide), if_neg (by decide), hl, hb,
      if_neg (by decide)]
    norm_num [polyfitSlope, List.range_succ]
  have hclaim : slopeDistinctWeeksClaim taxoCrash rsGap = -1 := by
    have hw : sortIntsAsc (dedupInts ((painDated taxoCrash false true rsGap).map
        mondayStartOf)) = [0, 21] := by decide
    unfold slopeDistinctWeeksClaim
    rw [if_neg (by decide)]
    dsimp only
    rw [show colSome Review.title rsGap = false from by decide,
        show colSome Review.text rsGap = true from by decide]
    rw [if_neg (by decide), if_neg (by decide), hw, if_neg (by decide)]
    simp only [List.map_cons, List.map_nil]
    rw [show ((painDated taxoCrash false true rsGap).filter
          (fun r => mondayStartOf r = (0 : ℤ))).length = 2 from by decide,
        show ((painDated taxoCrash false true rsGap).filter
          (fun r => mondayStartOf r = (21 : ℤ))).length = 1 from by decide]
    norm_num [polyfitSlope, List.range_succ]
  rw [hcode, hclaim]
  norm_num

/-- Claim C4 (amended): the weekly buckets of `calculate_slope` do start on
Monday and the fit indexes them 0, 1, 2, … in chronological order, but the
index runs over every consecutive calendar week from the first to the last
observed week: unobserved weeks in between do contribute zero-count
buckets. -/
theorem c4_amended_slope_gap_filled (taxo : Taxonomy) (reviews : List Review) :
    calculateSlope taxo reviews = slopeGapFilledWeeks taxo reviews := by
  unfold calculateSlope calculateSlopeAux slopeGapFilledWeeks
  dsimp only
  set tc := colSome Review.title reviews with htc
  set xc := colSome Review.text reviews with hxc
  by_cases h1 : reviews.isEmpty = true
  · simp [h1]
  simp only [h1, if_false]
  by_cases h2 : (painRecs taxo tc xc reviews).length < 2
  · simp [h2]
  simp only [h2, if_false]
  by_cases h3 : (painDated taxo tc xc reviews).length < 2
  · simp [h3]
  simp only [h3, if_false]
  obtain ⟨m, rest, hm⟩ : ∃ m rest,
      (painDated taxo tc xc reviews).map mondayStartOf = m :: rest := by
    cases hd : painDated taxo tc xc reviews with
    | nil => rw [hd] at h3; simp at h3
    | cons r0 tl => exact ⟨mondayStartOf r0, tl.map mondayStartOf, by simp [hd]⟩
  have hlbl : (painDated taxo tc xc reviews).map wsunLabelOf =
      (m + 6) :: rest.map (fun x => x + 6) := by
    have h0 : (painDated taxo tc xc reviews).map wsunLabelOf =
        ((painDated taxo tc xc reviews).map mondayStartOf).map (fun x => x + 6) := by
      rw [List.map_map]; rfl
    rw [h0, hm, List.map_cons]
  have hbuckets : slopeBuckets taxo tc xc reviews =
      (weekRange (rest.foldl min m) (rest.foldl max m)).map (fun x => x + 6) := by
    unfold slopeBuckets
    rw [hlbl]
    dsimp only
    rw [foldl_min_add, foldl_max_add, weekRange_shift]
  rw [hm]
  dsimp only
  rw [hbuckets, List.length_map]
  by_cases h4 : (weekRange (rest.foldl min m) (rest.foldl max m)).length < 2
  · simp [h4]
  simp only [h4, if_false]
  have harg : ((weekRange (rest.foldl min m) (rest.foldl max m)).map
        (fun x => x + 6)).map
        (fun b => (((painDated taxo tc xc reviews).map wsunLabelOf).count b : ℚ)) =
      (weekRange (rest.foldl min m) (rest.foldl max m)).map
        (fun wk => (((painDated taxo tc xc reviews).filter
          (fun r => mondayStartOf r = wk)).length : ℚ)) := by
    rw [List.map_map]
    apply List.map_congr_left
    intro wk _
    simp only [Function.comp_apply]
    rw [count_label_shift]
  rw [harg]

end Analyzer
end AppScraper

namespace AppScraper
namespace Analyzer

/-- Claim C2, counterexample: the same record list analyzed at two run
times gives different results even after excluding `analysis_date` — the
`filter_by_date` cutoff `now - 90` admits the day-0 record at day 10 but
not at day 200, so `total_reviews_90d` is 1 in the first run and 0 in the
second. -/
theorem c2_counterexample :
    eraseDate (analyze taxoCrash rsOne "A" 90 10) ≠
      eraseDate (analyze taxoCrash rsOne "A" 90 200) := by
  have h1 : (analyze taxoCrash rsOne "A" 90 10).metrics.totalReviews90d = 1 := by
    have hdf : filterByDate 10 90 (normalizeReviews 10 rsOne) =
        [{ text := some "crash app", date := some 0, score := some 1 }] := by decide
    unfold analyze
    rw [if_neg (by decide)]
    dsimp only
    rw [hdf]
    rw [if_neg (by decide)]
    unfold analyzeCore
    dsimp only
    norm_num
  have h2 : (analyze taxoCrash rsOne "A" 90 200).metrics.totalReviews90d = 0 := by
    have hdf : filterByDate 200 90 (normalizeReviews 200 rsOne) = [] := by decide
    unfold analyze
    rw [if_neg (by decide)]
    dsimp only
    rw [hdf]
    rfl
  intro h
  have hh := congrArg (fun a => a.metrics.totalReviews90d) h
  simp only [eraseDate] at hh
  rw [h1, h2] at hh
  exact absurd hh (by norm_num)

/-- Claim C2 (amended): apart from `analysis_date`, the run time enters
`analyze` only through the date normalization and the `filter_by_date`
cutoff; whenever two run times leave the normalized, date-filtered record
list unchanged, the results agree once `analysis_date` is excluded. -/
theorem c2_amended_time_independence (taxo : Taxonomy) (reviews : List Review)
    (appName : String) (daysBack now1 now2 : ℤ)
    (hf : filterByDate now1 daysBack (normalizeReviews now1 reviews) =
          filterByDate now2 daysBack (normalizeReviews now2 reviews)) :
    eraseDate (analyze taxo reviews appName daysBack now1) =
      eraseDate (analyze taxo reviews appName daysBack now2) := by
  unfold analyze
  by_cases h1 : reviews.isEmpty = true
  · simp [h1, eraseDate, emptyAnalysisResult]
  · simp only [h1, if_false]
    rw [hf]
    by_cases h2 : (filterByDate now2 daysBack (normalizeReviews now2 reviews)).isEmpty = true
    · simp [h2, eraseDate, emptyAnalysisResult]
    · simp [h2, eraseDate]

/-- Witness for the amended C2, at run times 10 and 11 over a single
day-0 record (both cutoffs admit it). -/
theorem c2_amended_time_independence_witness :
    filterByDate 10 90 (normalizeReviews 10 rsOne) =
        filterByDate 11 90 (normalizeReviews 11 rsOne) ∧
      eraseDate (analyze taxoCrash rsOne "A" 90 10) =
        eraseDate (analyze taxoCrash rsOne "A" 90 11) :=
  ⟨by decide, c2_amended_time_independence taxoCrash rsOne "A" 90 10 11 (by decide)⟩

end Analyzer
end AppScraper

namespace AppScraper
namespace Intelligence

theorem rollingWindow_head (xs : List ℚ) (w : ℕ) (hw : 1 ≤ w) (x0 : ℚ)
    (t : List ℚ) (hx : xs = x0 :: t) : rollingWindow xs w 0 = [x0] := by
  unfold rollingWindow
  rw [hx]
  simp [Nat.sub_eq_zero_of_le hw]

theorem listMean_single (x : ℚ) : listMean [x] = x := by
  unfold listMean
  simp

theorem sampleVar_single (x : ℚ) : sampleVar [x] = 0 := by
  unfold sampleVar
  norm_num

theorem isAnomaly_self (d : ℚ) : isAnomaly d d 0 = false := by
  unfold isAnomaly
  simp

/-- Claim C6: no entry of the returned timeline has a `total` below the
configured `min_reviews_per_week`, and when fewer than two weeks survive
the noise filter the timeline is empty. -/
theorem c6_noise_filter (taxo : Taxonomy) (rows : List IRec) (minPerWeek : ℤ) :
    ((detectEventTimeline taxo rows minPerWeek).all
        (fun e => decide (minPerWeek ≤ e.total)) = true) ∧
      ((weeklyFiltered taxo rows minPerWeek).length < 2 →
        detectEventTimeline taxo rows minPerWeek = []) := by
  constructor
  · rw [List.all_eq_true]
    intro e he
    unfold detectEventTimeline at he
    dsimp only at he
    split at he
    · simp at he
    split at he
    · simp at he
    split at he
    · simp at he
    obtain ⟨iwb, hiwb, hfe⟩ := List.mem_map.mp he
    have hmem : iwb.2 ∈ weeklyFiltered taxo rows minPerWeek := by
      have h2 := List.mem_map_of_mem Prod.snd hiwb
      rwa [List.enum_map_snd] at h2
    unfold weeklyFiltered at hmem
    have htot := List.of_mem_filter hmem
    rw [← hfe]
    dsimp only
    exact htot
  · intro hlen
    unfold detectEventTimeline
    dsimp only
    split
    · rfl
    split
    · rfl
    rfl

/-- Witness for C6: six same-week records leave a single retained week, so
the timeline is empty (and the per-entry bound holds vacuously). -/
theorem c6_noise_filter_witness :
    ((detectEventTimeline taxoCrash rsOneWeek 5).all
        (fun e => decide ((5 : ℤ) ≤ e.total)) = true) ∧
      detectEventTimeline taxoCrash rsOneWeek 5 = [] :=
  ⟨(c6_noise_filter taxoCrash rsOneWeek 5).1,
   (c6_noise_filter taxoCrash rsOneWeek 5).2 (by decide)⟩

/-- Claim C10: the first entry of a nonempty timeline is never flagged:
its shrinking rolling window contains only its own density (`min_periods =
1`, missing std filled with 0), so the strict `density > mean + 2·std`
comparison fails. -/
theorem c10_first_entry_not_flagged (taxo : Taxonomy) (rows : List IRec)
    (minPerWeek : ℤ) (e : TimelineEntry) (rest : List TimelineEntry)
    (h : detectEventTimeline taxo rows minPerWeek = e :: rest) :
    e.event = none := by
  unfold detectEventTimeline at h
  dsimp only at h
  split at h
  · simp at h
  split at h
  · simp at h
  split at h
  · simp at h
  cases hw : weeklyFiltered taxo rows minPerWeek with
  | nil => rw [hw] at h; simp at h
  | cons wb tl =>
    rw [hw] at h
    simp only [List.enum_cons, List.map_cons] at h
    injection h with he _
    rw [← he]
    dsimp only
    have h1w : 1 ≤ min 4 (wb :: tl).length :=
      le_min (by norm_num) (by simp [Nat.succ_le_succ])
    rw [rollingWindow_head _ _ h1w (wb.painCount / (wb.total : ℚ))
        (tl.map (fun b => b.painCount / (b.total : ℚ))) rfl,
      listMean_single, sampleVar_single, isAnomaly_self]
    simp

end Intelligence
end AppScraper

namespace AppScraper
namespace Intelligence

/-- Claim C7: evaluation of the detector at a textbook spike (five calm
reviews one week, five all-pain version-2.0 reviews the next).  Both weeks
pass the noise filter and the densities are 0 and 1, yet neither week is
flagged and no event label — in particular no "The Version 2.0 Spike" — is
ever produced: with a trailing window of at most 4 weeks that contains the
current week, `density > rolling_mean + 2·rolling_std` cannot hold, so the
named-spike labelling is unreachable. -/
theorem c7_spike_never_flagged :
    detectEventTimeline taxoCrash rsSpike 5 =
      [⟨7, 0, 5, 0, none, none⟩, ⟨14, 1, 5, 5, none, none⟩] := by
  have hfine : hasPainKeyword taxoCrash "fine" = false := by decide
  have hcrash : hasPainKeyword taxoCrash "crash" = true := by decide
  have hwf : isWhaleReview "fine" = false := by decide
  have hwc : isWhaleReview "crash" = false := by decide
  have hdl : datedRows rsSpike =
      [(1, "fine", ""), (2, "fine", ""), (3, "fine", ""), (4, "fine", ""),
       (5, "fine", ""), (8, "crash", "2.0"), (9, "crash", "2.0"),
       (10, "crash", "2.0"), (11, "crash", "2.0"), (12, "crash", "2.0")] := by decide
  have hwb : weeklyBuckets taxoCrash rsSpike = [⟨7, 5, 0⟩, ⟨14, 5, 5⟩] := by
    unfold weeklyBuckets
    rw [hdl]
    dsimp only
    rw [show List.map (fun t => wmonLabel t.1)
        [((1:ℤ), "fine", ""), (2, "fine", ""), (3, "fine", ""), (4, "fine", ""),
         (5, "fine", ""), (8, "crash", "2.0"), (9, "crash", "2.0"),
         (10, "crash", "2.0"), (11, "crash", "2.0"), (12, "crash", "2.0")] =
        [7, 7, 7, 7, 7, 14, 14, 14, 14, 14] from by decide]
    dsimp only
    rw [show List.foldl min (7:ℤ) [7, 7, 7, 7, 14, 14, 14, 14, 14] = 7 from by decide,
        show List.foldl max (7:ℤ) [7, 7, 7, 7, 14, 14, 14, 14, 14] = 14 from by decide,
        show Analyzer.weekRange 7 14 = [7, 14] from by decide]
    simp only [List.map_cons, List.map_nil]
    rw [show List.filter (fun t => decide (wmonLabel t.1 = (7:ℤ)))
        [((1:ℤ), "fine", ""), (2, "fine", ""), (3, "fine", ""), (4, "fine", ""),
         (5, "fine", ""), (8, "crash", "2.0"), (9, "crash", "2.0"),
         (10, "crash", "2.0"), (11, "crash", "2.0"), (12, "crash", "2.0")] =
        [(1, "fine", ""), (2, "fine", ""), (3, "fine", ""), (4, "fine", ""),
         (5, "fine", "")] from by decide,
       show List.filter (fun t => decide (wmonLabel t.1 = (14:ℤ)))
        [((1:ℤ), "fine", ""), (2, "fine", ""), (3, "fine", ""), (4, "fine", ""),
         (5, "fine", ""), (8, "crash", "2.0"), (9, "crash", "2.0"),
         (10, "crash", "2.0"), (11, "crash", "2.0"), (12, "crash", "2.0")] =
        [(8, "crash", "2.0"), (9, "crash", "2.0"), (10, "crash", "2.0"),
         (11, "crash", "2.0"), (12, "crash", "2.0")] from by decide]
    simp only [List.map_cons, List.map_nil, List.length_cons, List.length_nil]
    norm_num [hfine, hcrash, hwf, hwc, getPainWeight]
  have hwfilt : weeklyFiltered taxoCrash rsSpike 5 = [⟨7, 5, 0⟩, ⟨14, 5, 5⟩] := by
    unfold weeklyFiltered
    rw [hwb]
    norm_num [List.filter]
  unfold detectEventTimeline
  rw [if_neg (by decide)]
  dsimp only
  rw [hdl, hwfilt]
  rw [if_neg (by decide), if_neg (by norm_num)]
  norm_num [rollingWindow, listMean, sampleVar, isAnomaly, roundTo, roundHalfEven,
    List.enum_cons]

/-- Witness for C10: a two-week timeline whose first week is all pain
(density 1) — still unflagged. -/
theorem c10_first_entry_not_flagged_witness :
    detectEventTimeline taxoCrash rsTwoWeeks 1 =
        [⟨7, 1, 1, 1, none, none⟩, ⟨14, 0, 1, 0, none, none⟩] ∧
      TimelineEntry.event ⟨7, 1, 1, 1, none, none⟩ = none := by
  have hcrash : hasPainKeyword taxoCrash "crash" = true := by decide
  have hok : hasPainKeyword taxoCrash "ok" = false := by decide
  have hwc : isWhaleReview "crash" = false := by decide
  have hwo : isWhaleReview "ok" = false := by decide
  have hdl : datedRows rsTwoWeeks = [(1, "crash", ""), (8, "ok", "")] := by decide
  have hwb : weeklyBuckets taxoCrash rsTwoWeeks = [⟨7, 1, 1⟩, ⟨14, 1, 0⟩] := by
    unfold weeklyBuckets
    rw [hdl]
    dsimp only
    rw [show List.map (fun t => wmonLabel t.1)
        [((1:ℤ), "crash", ""), (8, "ok", "")] = [7, 14] from by decide]
    dsimp only
    rw [show List.foldl min (7:ℤ) [14] = 7 from by decide,
        show List.foldl max (7:ℤ) [14] = 14 from by decide,
        show Analyzer.weekRange 7 14 = [7, 14] from by decide]
    simp only [List.map_cons, List.map_nil]
    rw [show List.filter (fun t => decide (wmonLabel t.1 = (7:ℤ)))
          [((1:ℤ), "crash", ""), (8, "ok", "")] = [(1, "crash", "")] from by decide,
        show List.filter (fun t => decide (wmonLabel t.1 = (14:ℤ)))
          [((1:ℤ), "crash", ""), (8, "ok", "")] = [(8, "ok", "")] from by decide]
    simp only [List.map_cons, List.map_nil, List.length_cons, List.length_nil]
    norm_num [hcrash, hok, hwc, hwo, getPainWeight]
  have hwfilt : weeklyFiltered taxoCrash rsTwoWeeks 1 = [⟨7, 1, 1⟩, ⟨14, 1, 0⟩] := by
    unfold weeklyFiltered
    rw [hwb]
    norm_num [List.filter]
  have hdetect : detectEventTimeline taxoCrash rsTwoWeeks 1 =
      [⟨7, 1, 1, 1, none, none⟩, ⟨14, 0, 1, 0, none, none⟩] := by
    unfold detectEventTimeline
    rw [if_neg (by decide)]
    dsimp only
    rw [hdl, hwfilt]
    rw [if_neg (by decide), if_neg (by norm_num)]
    norm_num [rollingWindow, listMean, sampleVar, isAnomaly, roundTo, roundHalfEven,
      List.enum_cons]
  exact ⟨hdetect,
    c10_first_entry_not_flagged taxoCrash rsTwoWeeks 1 _ _ hdetect⟩

end Intelligence
end AppScraper

namespace AppScraper
namespace Intelligence

/-- Claim C8: `map_competitor_migration` counts
"I switched to Opal and never looked back" as one churn edge for "Opal",
and returns nothing for the comparison phrasing "Better than Opal ever
was". -/
theorem c8_migration_examples :
    mapCompetitorMigration ["I switched to Opal and never looked back"] ["Opal"] =
        [⟨"Opal", "churn", 1⟩] ∧
      mapCompetitorMigration ["Better than Opal ever was"] ["Opal"] = [] := by
  constructor <;> decide

theorem mem_insertDescBy {α : Type} (key : α → ℚ) (x a : α) :
    ∀ l : List α, a ∈ insertDescBy key x l → a = x ∨ a ∈ l := by
  intro l
  induction l with
  | nil =>
    intro h
    simp only [insertDescBy, List.mem_singleton] at h
    exact Or.inl h
  | cons b bs ih =>
    intro h
    unfold insertDescBy at h
    split at h
    · rcases List.mem_cons.mp h with h1 | h2
      · exact Or.inl h1
      · exact Or.inr h2
    · rcases List.mem_cons.mp h with h1 | h2
      · exact Or.inr (by rw [h1]; exact List.mem_cons_self b bs)
      · rcases ih h2 with h3 | h4
        · exact Or.inl h3
        · exact Or.inr (List.mem_cons_of_mem b h4)

theorem mem_stableSortDesc_aux {α : Type} (key : α → ℚ) (a : α) :
    ∀ (l : List α) (acc : List α),
      a ∈ l.foldl (fun acc2 x => insertDescBy key x acc2) acc → a ∈ acc ∨ a ∈ l := by
  intro l
  induction l with
  | nil => intro acc h; exact Or.inl h
  | cons b bs ih =>
    intro acc h
    simp only [List.foldl_cons] at h
    rcases ih _ h with h1 | h2
    · rcases mem_insertDescBy key b a acc h1 with h3 | h4
      · exact Or.inr (by rw [h3]; exact List.mem_cons_self b bs)
      · exact Or.inl h4
    · exact Or.inr (List.mem_cons_of_mem b h2)

theorem mem_stableSortDesc {α : Type} (key : α → ℚ) (a : α) (l : List α)
    (h : a ∈ stableSortDesc key l) : a ∈ l := by
  unfold stableSortDesc at h
  rcases mem_stableSortDesc_aux key a l [] h with h1 | h2
  · simp at h1
  · exact h2

theorem mem_insertAscStr (x a : String) :
    ∀ l : List String, a ∈ Analyzer.insertAscStr x l → a = x ∨ a ∈ l := by
  intro l
  induction l with
  | nil =>
    intro h
    simp only [Analyzer.insertAscStr, List.mem_singleton] at h
    exact Or.inl h
  | cons b bs ih =>
    intro h
    unfold Analyzer.insertAscStr at h
    split at h
    · rcases List.mem_cons.mp h with h1 | h2
      · exact Or.inl h1
      · exact Or.inr h2
    · rcases List.mem_cons.mp h with h1 | h2
      · exact Or.inr (by rw [h1]; exact List.mem_cons_self b bs)
      · rcases ih h2 with h3 | h4
        · exact Or.inl h3
        · exact Or.inr (List.mem_cons_of_mem b h4)

theorem mem_sortStringsAsc_aux (a : String) :
    ∀ (l : List String) (acc : List String),
      a ∈ l.foldl (fun acc2 x => Analyzer.insertAscStr x acc2) acc → a ∈ acc ∨ a ∈ l := by
  intro l
  induction l with
  | nil => intro acc h; exact Or.inl h
  | cons b bs ih =>
    intro acc h
    simp only [List.foldl_cons] at h
    rcases ih _ h with h1 | h2
    · rcases mem_insertAscStr b a acc h1 with h3 | h4
      · exact Or.inr (by rw [h3]; exact List.mem_cons_self b bs)
      · exact Or.inl h4
    · exact Or.inr (List.mem_cons_of_mem b h2)

theorem mem_sortStringsAsc (a : String) (l : List String)
    (h : a ∈ Analyzer.sortStringsAsc l) : a ∈ l := by
  unfold Analyzer.sortStringsAsc at h
  rcases mem_sortStringsAsc_aux a l [] h with h1 | h2
  · simp at h1
  · exact h2

theorem mem_limitedVocab (stop : List String) (texts : List String) (t : String)
    (h : t ∈ limitedVocab stop texts) : t ∈ vocabMinDf2 stop texts := by
  unfold limitedVocab at h
  dsimp only at h
  split at h
  · exact h
  · have h1 := mem_sortStringsAsc t _ h
    have h2 := List.mem_of_mem_take h1
    exact mem_stableSortDesc _ t _ h2

end Intelligence
end AppScraper

namespace AppScraper
namespace Intelligence

/-- Claim C9, counterexample: on the single-text corpus
`["sync failed sync failed"]` every 2–3-gram has document frequency 1, so
the vectorizer's vocabulary is empty and the source falls back to
`_fallback_ngrams` (it does the same when sklearn is not installed); the
fallback has no document-frequency floor, and the returned top phrase
`"sync failed"` (count 2) comes from that one source text. -/
theorem c9_counterexample :
    ("sync failed", (2 : ℤ)) ∈
        extractSemanticClusters true "TestApp" ["sync failed sync failed"] 5 ∧
      ("sync failed", (2 : ℤ)) ∈
        extractSemanticClusters false "TestApp" ["sync failed sync failed"] 5 ∧
      (["sync failed sync failed"].filter
        (fun t => containsList (lowerChars "sync failed") (lowerChars t))).length = 1 := by
  refine ⟨by decide, by decide, by decide⟩

/-- Claim C9 (amended): in the sklearn path — vectorizer available and its
`min_df = 2` vocabulary nonempty — every phrase returned by
`extract_semantic_clusters` occurs in at least 2 distinct texts of the
processed corpus; only when sklearn is missing, or the vectorizer fails
(e.g. empty vocabulary after pruning), does the fallback n-gram counter
run without a document-frequency floor, so that a phrase repeated inside a
single text can be returned. -/
theorem c9_amended_min_df (appName : String) (texts0 : List String) (topN : ℕ)
    (hvocab : (vocabMinDf2 (stopSet appName) (vecTexts texts0)).isEmpty = false) :
    ∀ p ∈ extractSemanticClusters true appName texts0 topN,
      2 ≤ docFreq (stopSet appName) (vecTexts texts0) p.1 := by
  intro p hp
  unfold extractSemanticClusters at hp
  split at hp
  · simp at hp
  · rw [if_pos rfl] at hp
    dsimp only at hp
    split at hp
    · rename_i hemp
      rw [hemp] at hvocab
      simp at hvocab
    · have h1 := List.mem_of_mem_take hp
      have h2 := mem_stableSortDesc _ p _ h1
      have h3 := List.mem_of_mem_filter h2
      unfold skPairs at h3
      obtain ⟨term, hterm, hpt⟩ := List.mem_map.mp h3
      have h4 : p.1 ∈ vocabMinDf2 (stopSet appName) (vecTexts texts0) := by
        rw [← hpt]
        exact mem_limitedVocab _ _ _ hterm
      unfold vocabMinDf2 at h4
      have h5 := List.of_mem_filter h4
      exact of_decide_eq_true h5

/-- Witness for the amended C9: the phrase "sync failed" extracted from the
two-text corpus has document frequency 2. -/
theorem c9_amended_min_df_witness :
    2 ≤ docFreq (stopSet "TestApp") (vecTexts ["sync failed now", "sync failed again"])
      "sync failed" :=
  c9_amended_min_df "TestApp" ["sync failed now", "sync failed again"] 5 (by decide)
    ("sync failed", (2 : ℤ)) (by decide)

end Intelligence
end AppScraper

namespace AppScraper
namespace Intelligence

/-! ### The anomaly flag of `detect_event_timeline` is unsatisfiable.

The rolling window is at most `min(4, #weeks)` long and always contains
the current week, and for a sample of `n ≤ 4` points no point can sit more
than `(n-1)/√n ≤ 3/2` sample standard deviations above the window mean —
so the strict `density > mean + 2·std` test can never succeed.  The
following lemmas prove this. -/

theorem sum_map_nonneg_of (l : List ℚ) (f : ℚ → ℚ) (h : ∀ a, 0 ≤ f a) :
    0 ≤ (l.map f).sum := by
  apply List.sum_nonneg
  intro x hx
  obtain ⟨a, _, rfl⟩ := List.mem_map.mp hx
  exact h a

theorem list_cs (l : List ℚ) :
    (l.sum) ^ 2 ≤ (l.length : ℚ) * (l.map (fun y => y ^ 2)).sum := by
  induction l with
  | nil => simp
  | cons a t ih =>
    simp only [List.sum_cons, List.map_cons, List.length_cons]
    push_cast
    by_cases ht : t.length = 0
    · rw [List.length_eq_zero] at ht
      subst ht
      simp
    · have hm1 : (1 : ℚ) ≤ (t.length : ℚ) := by
        have : 1 ≤ t.length := Nat.one_le_iff_ne_zero.mpr ht
        exact_mod_cast this
      have hq := sum_map_nonneg_of t (fun y => y ^ 2) (fun y => sq_nonneg y)
      nlinarith [ih, sq_nonneg ((t.length : ℚ) * a - t.sum), hm1, hq]

theorem sum_map_sub_const (l : List ℚ) (c : ℚ) :
    (l.map (fun y => y - c)).sum = l.sum - l.length * c := by
  induction l with
  | nil => simp
  | cons a t ih =>
    simp only [List.map_cons, List.sum_cons, List.length_cons, ih]
    push_cast
    ring

theorem sum_map_sub_mean (xs : List ℚ) (hne : xs ≠ []) :
    (xs.map (fun y => y - listMean xs)).sum = 0 := by
  have hlen : (xs.length : ℚ) ≠ 0 := by
    have := List.length_pos.mpr hne
    exact_mod_cast Nat.pos_iff_ne_zero.mp this
  rw [sum_map_sub_const]
  unfold listMean
  field_simp

theorem sq_dev_le_of_mem (xs : List ℚ) (x : ℚ) (hx : x ∈ xs) :
    (xs.length : ℚ) * (x - listMean xs) ^ 2 ≤
      ((xs.length : ℚ) - 1) * (xs.map (fun y => (y - listMean xs) ^ 2)).sum := by
  obtain ⟨l1, l2, rfl⟩ := List.append_of_mem hx
  set μ := listMean (l1 ++ x :: l2) with hμ
  have hne : (l1 ++ x :: l2) ≠ [] := by simp
  have h0 := sum_map_sub_mean (l1 ++ x :: l2) hne
  rw [← hμ] at h0
  simp only [List.map_append, List.map_cons, List.sum_append, List.sum_cons] at h0
  have hs : ((l1 ++ l2).map (fun y => y - μ)).sum = -(x - μ) := by
    simp only [List.map_append, List.sum_append]
    linarith
  have hcs := list_cs ((l1 ++ l2).map (fun y => y - μ))
  rw [hs] at hcs
  have hmap : (((l1 ++ l2).map (fun y => y - μ)).map (fun y => y ^ 2)).sum =
      ((l1 ++ l2).map (fun y => (y - μ) ^ 2)).sum := by
    rw [List.map_map]
    rfl
  rw [hmap] at hcs
  have hlen2 : (((l1 ++ l2).map (fun y => y - μ)).length : ℚ) =
      ((l1 ++ x :: l2).length : ℚ) - 1 := by
    simp only [List.length_map, List.length_append, List.length_cons]
    push_cast
    ring
  rw [hlen2] at hcs
  have hsplit : ((l1 ++ x :: l2).map (fun y => (y - μ) ^ 2)).sum =
      ((l1 ++ l2).map (fun y => (y - μ) ^ 2)).sum + (x - μ) ^ 2 := by
    simp only [List.map_append, List.map_cons, List.sum_append, List.sum_cons]
    ring
  rw [hsplit]
  have hsq : (-(x - μ)) ^ 2 = (x - μ) ^ 2 := by ring
  rw [hsq] at hcs
  nlinarith [hcs]

theorem no_anomaly_small_window (xs : List ℚ) (x : ℚ) (hx : x ∈ xs)
    (hn : xs.length ≤ 4) :
    isAnomaly x (listMean xs) (sampleVar xs) = false := by
  rcases Nat.lt_or_ge xs.length 2 with h1 | h2
  · cases xs with
    | nil => simp at hx
    | cons a t =>
      have ht : t = [] := by
        simp only [List.length_cons] at h1
        have : t.length = 0 := by omega
        exact List.length_eq_zero.mp this
      subst ht
      have hxa : x = a := by simpa using hx
      subst hxa
      rw [listMean_single, sampleVar_single, isAnomaly_self]
  · have hkey := sq_dev_le_of_mem xs x hx
    have hS := sum_map_nonneg_of xs (fun y => (y - listMean xs) ^ 2)
      (fun y => sq_nonneg _)
    have hn2 : (2 : ℚ) ≤ (xs.length : ℚ) := by exact_mod_cast h2
    have hn4 : (xs.length : ℚ) ≤ 4 := by exact_mod_cast hn
    unfold sampleVar
    rw [if_neg (by omega)]
    unfold isAnomaly
    have hfalse : ¬(4 * ((xs.map (fun y => (y - listMean xs) ^ 2)).sum /
        ((xs.length : ℚ) - 1)) < (x - listMean xs) ^ 2) := by
      rw [not_lt, mul_div_assoc']
      rw [le_div_iff₀ (by linarith)]
      have hprod : (0 : ℚ) ≤ ((xs.length : ℚ) - 2) * (4 - (xs.length : ℚ)) :=
        mul_nonneg (by linarith) (by linarith)
      nlinarith [hkey, hS, sq_nonneg (x - listMean xs)]
    simp [hfalse]

theorem rollingWindow_length_le (xs : List ℚ) (w i : ℕ) :
    (rollingWindow xs w i).length ≤ w := by
  unfold rollingWindow
  rw [List.length_drop, List.length_take]
  omega

theorem self_mem_rollingWindow (xs : List ℚ) (w i : ℕ) (hw : 1 ≤ w)
    (hi : i < xs.length) : xs[i] ∈ rollingWindow xs w i := by
  unfold rollingWindow
  rw [List.mem_iff_getElem]
  have hlt : i - (i + 1 - w) < ((xs.take (i + 1)).drop (i + 1 - w)).length := by
    rw [List.length_drop, List.length_take]
    omega
  refine ⟨i - (i + 1 - w), hlt, ?_⟩
  rw [List.getElem_drop, List.getElem_take]
  congr 1
  omega

/-- On every input, `detect_event_timeline` flags nothing: every returned
entry carries a null event.  The rolling window (length ≤ 4, current week
included) bounds any week's z-score by `(n-1)/√n ≤ 3/2 < 2`, so the
`μ + 2σ` threshold is unreachable and the named-spike labelling is dead
code. -/
theorem detectEventTimeline_never_flags (taxo : Taxonomy) (rows : List IRec)
    (minPerWeek : ℤ) :
    (detectEventTimeline taxo rows minPerWeek).all (fun e => e.event.isNone) = true := by
  rw [List.all_eq_true]
  intro e he
  unfold detectEventTimeline at he
  dsimp only at he
  split at he
  · simp at he
  split at he
  · simp at he
  split at he
  · simp at he
  obtain ⟨iwb, hiwb, hfe⟩ := List.mem_map.mp he
  obtain ⟨i, wb⟩ := iwb
  obtain ⟨hilt, hwb⟩ := List.mem_enum hiwb
  rw [← hfe]
  dsimp only
  have hdsl : i < (List.map (fun b => b.painCount / (b.total : ℚ))
      (weeklyFiltered taxo rows minPerWeek)).length := by
    rw [List.length_map]
    exact hilt
  have hd : (List.map (fun b => b.painCount / (b.total : ℚ))
      (weeklyFiltered taxo rows minPerWeek))[i] = wb.painCount / (wb.total : ℚ) := by
    rw [List.getElem_map]
    rw [← hwb]
  have hw1 : 1 ≤ min 4 (weeklyFiltered taxo rows minPerWeek).length :=
    le_min (by norm_num) (by omega)
  have hmem := self_mem_rollingWindow _ _ i hw1 hdsl
  rw [hd] at hmem
  have hlen : (rollingWindow (List.map (fun b => b.painCount / (b.total : ℚ))
      (weeklyFiltered taxo rows minPerWeek))
      (min 4 (weeklyFiltered taxo rows minPerWeek).length) i).length ≤ 4 :=
    le_trans (rollingWindow_length_le _ _ _) (min_le_left _ _)
  have hno := no_anomaly_small_window _ _ hmem hlen
  rw [hno]
  simp

end Intelligence
end AppScraper
